import Mathlib

/-!
# Verification of the golisp concurrency primitives (`prim_concurrency.go`)

A shallow embedding of the process/concurrency subsystem of golisp:
`fork`, `proc-sleep`, `wake`, `schedule`, `reset-timeout`, `abandon`,
and the panic-protection wrapper.  Go channels of capacity 1 are modelled
as an `Option Bool` single-slot buffer; goroutine interleavings are
modelled as traces of events over an explicit state machine; each
primitive implementation (`ForkImpl`, `ProcSleepImpl`, ...) is translated
into a pure Lean function over already-evaluated argument outcomes,
returning the evaluation result together with the observable effects
(tasks spawned, deliveries attempted, lines logged, number of argument
expressions evaluated).
-/

namespace GoLisp

/-- Lisp runtime values, as far as the concurrency primitives inspect them:
`FunctionP`/`FunctionValue(..).RequiredArgCount`, `IntegerP`/`IntegerValue`,
`ObjectP`/`ObjectType`/`ObjectValue`, `StringWithValue`, `BooleanWithValue`.
A function value carries its required-argument count and an opaque id;
an object carries its type tag and an opaque payload id (the `unsafe.Pointer`
to the `Process`). -/
inductive LispData where
  | intD (n : Int)
  | boolD (b : Bool)
  | strD (s : String)
  | funcD (requiredArgCount : Nat) (fid : Nat)
  | objD (tag : String) (pid : Nat)
  | nilD
deriving DecidableEq, Repr

/-- The errors the primitives construct via `ProcessError`, one constructor per
`ProcessError(...)` call site kind, plus pass-through of an opaque failure of
`Eval` on an argument expression. -/
inductive RuntimeError where
  | notAFunction (who : String) (got : LispData)
  | wrongArity (who : String) (got : Nat)
  | notAProcess (who : String) (got : LispData)
  | notAnInteger (who : String) (got : LispData)
  | evalFailure (code : Nat)
deriving DecidableEq, Repr

/-- `FunctionP`. -/
def FunctionP : LispData → Bool
  | .funcD _ _ => true
  | _ => false

/-- `FunctionValue(f).RequiredArgCount` (0 on non-functions; the primitives
only read it after `FunctionP` holds). -/
def RequiredArgCount : LispData → Nat
  | .funcD n _ => n
  | _ => 0

/-- `IntegerP`. -/
def IntegerP : LispData → Bool
  | .intD _ => true
  | _ => false

/-- `IntegerValue` (0 on non-integers; read only after `IntegerP` holds). -/
def IntegerValue : LispData → Int
  | .intD n => n
  | _ => 0

/-- `ObjectP(d) && ObjectType(d) == "Process"`: the handle-type check shared
by `proc-sleep`, `wake`, `abandon` and `reset-timeout`. -/
def isProcessObj : LispData → Bool
  | .objD tag _ => tag = "Process"
  | _ => false

/-- A Go channel `make(chan bool, 1)`: a single-slot buffer holding at most
one undelivered boolean event. -/
def SignalChan := Option Bool
deriving DecidableEq, Repr

/-- The empty freshly-made channel. -/
def emptyChan : SignalChan := none

/-- Outcome of an unconditional (blocking) send `ch <- true` on a capacity-1
channel with no receiver currently draining: it completes at once exactly when
the buffer slot is free; with the slot occupied the sender blocks until the
slot is drained. -/
inductive SendOutcome where
  | completed (newBuf : SignalChan)
  | blocked
deriving DecidableEq, Repr

/-- Blocking send of `true` into a capacity-1 channel. -/
def blockingSend (buf : SignalChan) : SendOutcome :=
  match buf with
  | none => .completed (some true)
  | some _ => .blocked

/-- Non-blocking send of `true` (Go `select` with a `default` branch) into a
capacity-1 channel: delivers when the slot is free, otherwise gives up
immediately; returns the new buffer and whether the delivery was accepted. -/
def nonBlockingSend (buf : SignalChan) : SignalChan × Bool :=
  match buf with
  | none => (some true, true)
  | some b => (some b, false)

/-! ## Fork (`ForkImpl`, lines 36-65)

`ForkImpl` evaluates its single argument, validates it (`FunctionP`, then
`RequiredArgCount == 1`), allocates a `Process` with three fresh capacity-1
channels, and spawns one goroutine that applies the function to the one-element
list holding the process handle.  We record the synchronous result, whether a
task was spawned, the argument list the spawned task passes to the callback
(`InternalMakeList(procObj)`), and the channel state of the freshly allocated
process. -/

/-- The state of a fork-created process's three channels; `ForkImpl` makes all
three with `make(chan bool, 1)` and arms no timer. -/
structure ForkProcChans where
  wakeSignal : GoLisp.SignalChan
  abortSignal : GoLisp.SignalChan
  restartSignal : GoLisp.SignalChan
deriving DecidableEq, Repr

/-- Channels of a process as `ForkImpl` allocates them: all empty. -/
def forkFreshChans : ForkProcChans :=
  { wakeSignal := emptyChan, abortSignal := emptyChan, restartSignal := emptyChan }

/-- What `ForkImpl` observably does: its synchronous result, whether a
goroutine was spawned, the argument list that goroutine hands to the callback,
and the fresh process's channels. -/
structure ForkOutcome where
  result : Except RuntimeError LispData
  spawned : Bool
  spawnedCallArgs : Option (List LispData)
  procChans : Option ForkProcChans
deriving Repr

/-- `ForkImpl(args, env)`.  `arg1` is the outcome of `Eval(Car(args), env)`;
`pid` models the fresh `unsafe.Pointer(proc)` payload of the returned handle. -/
def ForkImpl (arg1 : Except RuntimeError LispData) (pid : Nat) : ForkOutcome :=
  match arg1 with
  | .error e => ⟨.error e, false, none, none⟩
  | .ok f =>
    if ¬ FunctionP f then
      ⟨.error (.notAFunction "fork" f), false, none, none⟩
    else if RequiredArgCount f ≠ 1 then
      ⟨.error (.wrongArity "fork" (RequiredArgCount f)), false, none, none⟩
    else
      ⟨.ok (.objD "Process" pid), true, some [.objD "Process" pid],
        some forkFreshChans⟩

/-! ## Sleep / Wake (`ProcSleepImpl` lines 67-97, `WakeImpl` lines 99-113) -/

/-- Which of the two raced events of `ProcSleepImpl`'s `select` occurs first:
receipt on `proc.Wake`, or elapse of the `time.After` one-shot timer. -/
inductive SleepRaceWinner where
  | wakeRecv
  | timerElapse
deriving DecidableEq, Repr

/-- `ProcSleepImpl(args, env)`.  `arg1`/`arg2` are the outcomes `Eval(Car(args))`
and `Eval(Cadr(args))` would produce; `winner` resolves the `select` race.
The second component counts how many of the two argument expressions the
control flow actually evaluated (the Go code evaluates `Car` first and
early-returns before ever evaluating `Cadr` when the first argument fails
evaluation or the handle-type check). -/
def ProcSleepImpl (arg1 arg2 : Except RuntimeError LispData)
    (winner : SleepRaceWinner) : Except RuntimeError LispData × Nat :=
  match arg1 with
  | .error e => (.error e, 1)
  | .ok procObj =>
    if ¬ isProcessObj procObj then
      (.error (.notAProcess "proc-sleep" procObj), 1)
    else
      match arg2 with
      | .error e => (.error e, 2)
      | .ok millis =>
        if ¬ IntegerP millis then
          (.error (.notAnInteger "proc-sleep" millis), 2)
        else
          match winner with
          | .wakeRecv => (.ok (.boolD true), 2)
          | .timerElapse => (.ok (.boolD false), 2)

/-- What `WakeImpl` observably does once past evaluation: the delivery into
`proc.Wake` (`blockingSend`) and the value returned after the send completes. -/
structure WakeOutcome where
  delivery : SendOutcome
  returnValue : LispData
deriving DecidableEq, Repr

/-- `WakeImpl(args, env)`.  `arg1` is the outcome of `Eval(Car(args), env)`;
`wakeBuf` is the current buffer of the target process's `Wake` channel.
The code performs no validation beyond the handle-type check, then
unconditionally `proc.Wake <- true` and returns `StringWithValue("OK")`. -/
def WakeImpl (arg1 : Except RuntimeError LispData) (wakeBuf : SignalChan) :
    Except RuntimeError WakeOutcome :=
  match arg1 with
  | .error e => .error e
  | .ok procObj =>
    if ¬ isProcessObj procObj then
      .error (.notAProcess "wake" procObj)
    else
      .ok ⟨blockingSend wakeBuf, .strD "OK"⟩

/-! ## Abandon (`AbandonImpl`, lines 175-189) and
ResetTimeout (`ResetTimeoutImpl`, lines 191-211) -/

/-- `AbandonImpl(args, env)`: handle-type check, then the blocking delivery
`proc.Abort <- true`, then return `"OK"`.  Structured exactly like `WakeImpl`
but on the `Abort` channel. -/
def AbandonImpl (arg1 : Except RuntimeError LispData) (abortBuf : SignalChan) :
    Except RuntimeError WakeOutcome :=
  match arg1 with
  | .error e => .error e
  | .ok procObj =>
    if ¬ isProcessObj procObj then
      .error (.notAProcess "adandon" procObj)
    else
      .ok ⟨blockingSend abortBuf, .strD "OK"⟩

/-- `ResetTimeoutImpl(args, env)`: handle-type check, then a `select` with a
`default` branch around `proc.Restart <- true` — a non-blocking delivery —
returning `"OK"` when the delivery is accepted and the informational string
otherwise.  Result: new `Restart` buffer and the returned string value. -/
def ResetTimeoutImpl (arg1 : Except RuntimeError LispData)
    (restartBuf : SignalChan) : Except RuntimeError (SignalChan × LispData) :=
  match arg1 with
  | .error e => .error e
  | .ok procObj =>
    if ¬ isProcessObj procObj then
      .error (.notAProcess "restart" procObj)
    else
      match nonBlockingSend restartBuf with
      | (newBuf, true) => .ok (newBuf, .strD "OK")
      | (newBuf, false) =>
        .ok (newBuf, .strD "task was already completed or abandoned")

/-! ## Schedule (`ScheduleImpl`, lines 115-173): the controller state machine

The goroutine spawned by `ScheduleImpl` runs `for { select { ... } }` over
`proc.Abort`, `proc.Restart` and `proc.ScheduleTimer.C`, breaking out of the
loop on abort receipt and after firing.  We model it as a state machine:
`armed` while the loop is still running its `select`, `aborted` after
`break Loop` in the abort branch, `fired` after the callback invocation and
`break Loop` in the timer branch.  The state carries the two inbound channel
buffers, the timer's current arming, the delay captured at the `schedule`
call (the loop body re-arms with `IntegerValue(millis)` of that captured
value), the handle, and the list of argument lists passed to callback
invocations so far. -/

/-- The phase of the controller goroutine's loop. -/
inductive CtrlPhase where
  | armed
  | aborted
  | fired
deriving DecidableEq, Repr

/-- Full state of one scheduled process and its controller. -/
structure SchedState where
  phase : CtrlPhase
  abortSignal : SignalChan
  restartSignal : SignalChan
  /-- the duration the `ScheduleTimer` is currently armed for -/
  timerArmedFor : Int
  /-- `IntegerValue(millis)` captured once at the `schedule` call -/
  origDelay : Int
  /-- the `procObj` handle of this process -/
  handle : LispData
  /-- argument lists of the callback invocations performed so far -/
  invocations : List (List LispData)
deriving DecidableEq, Repr

/-- State of a scheduled process right after `ScheduleImpl` returns: loop
armed, fresh empty channels, timer armed for the requested delay, no
invocation yet. -/
def schedInit (delay : Int) (handle : LispData) : SchedState :=
  { phase := .armed
    abortSignal := emptyChan
    restartSignal := emptyChan
    timerArmedFor := delay
    origDelay := delay
    handle := handle
    invocations := [] }

/-- One resolution of the controller's three-way `select`. -/
inductive CtrlEvent where
  | recvAbort
  | recvRestart
  | timerElapse
deriving DecidableEq, Repr

/-- One controller step.  `none` means the event cannot occur: the loop has
exited (terminal phase — the goroutine consumes nothing any more), or the
chosen channel has no event to receive.  In `armed`:
abort receipt → `break Loop` (no invocation); restart receipt →
`proc.ScheduleTimer.Reset` with the captured delay, stay in the loop;
timer elapse → apply the callback to `InternalMakeList(procObj)` and
`break Loop`. -/
def ctrlStep (s : SchedState) (e : CtrlEvent) : Option SchedState :=
  match s.phase with
  | .armed =>
    match e with
    | .recvAbort =>
      match s.abortSignal with
      | some _ => some { s with phase := .aborted, abortSignal := none }
      | none => none
    | .recvRestart =>
      match s.restartSignal with
      | some _ => some { s with restartSignal := none,
                                timerArmedFor := s.origDelay }
      | none => none
    | .timerElapse =>
      some { s with phase := .fired,
                    invocations := s.invocations ++ [[s.handle]] }
  | .aborted => none
  | .fired => none

/-- An event of the whole system around one scheduled process: a controller
step, the completion of an `abandon` delivery into `Abort` (blocking send —
it can only complete while the slot is free), or a `reset-timeout` attempt on
`Restart` (non-blocking — it always occurs, delivering only when the slot is
free). -/
inductive SysEvent where
  | ctrl (e : CtrlEvent)
  | abandonDeliver
  | resetTimeoutAttempt
deriving DecidableEq, Repr

/-- One step of the system. -/
def sysStep (s : SchedState) (e : SysEvent) : Option SchedState :=
  match e with
  | .ctrl ce => ctrlStep s ce
  | .abandonDeliver =>
    match blockingSend s.abortSignal with
    | .completed newBuf => some { s with abortSignal := newBuf }
    | .blocked => none
  | .resetTimeoutAttempt =>
    some { s with restartSignal := (nonBlockingSend s.restartSignal).1 }

/-- Run a trace of system events from a state. -/
def sysRun (s : SchedState) : List SysEvent → Option SchedState
  | [] => some s
  | e :: es => (sysStep s e).bind (fun s2 => sysRun s2 es)

/-- What `ScheduleImpl` observably does: the synchronous result, whether the
controller goroutine was spawned, and the initial controller state. -/
structure ScheduleOutcome where
  result : Except RuntimeError LispData
  spawned : Bool
  ctrlInit : Option SchedState
deriving Repr

/-- `ScheduleImpl(args, env)`.  `arg1`/`arg2` are the outcomes of
`Eval(Car(args))` and `Eval(Cadr(args))`; validation order follows the code:
evaluate the delay, check `IntegerP`, evaluate the function, check
`FunctionP`, check `RequiredArgCount == 1`; only then allocate the process
(fresh channels, timer armed with `IntegerValue(millis)`) and spawn the
controller. -/
def ScheduleImpl (arg1 arg2 : Except RuntimeError LispData) (pid : Nat) :
    ScheduleOutcome :=
  match arg1 with
  | .error e => ⟨.error e, false, none⟩
  | .ok millis =>
    if ¬ IntegerP millis then
      ⟨.error (.notAnInteger "schedule" millis), false, none⟩
    else
      match arg2 with
      | .error e => ⟨.error e, false, none⟩
      | .ok f =>
        if ¬ FunctionP f then
          ⟨.error (.notAFunction "schedule" f), false, none⟩
        else if RequiredArgCount f ≠ 1 then
          ⟨.error (.wrongArity "schedule" (RequiredArgCount f)), false, none⟩
        else
          ⟨.ok (.objD "Process" pid), true,
            some (schedInit (IntegerValue millis) (.objD "Process" pid))⟩

/-! ## Panic protection (`callWithPanicProtection`, lines 213-226)

The wrapper runs `f` under a deferred `recover`; on a panic it captures the
stack, splits it into lines, and logs `stack[i]` for `i = 0..6`.  Note the
`prefix` parameter of the Go function is never mentioned in the body: the
logged lines are the raw stack lines.  We model the unit of work by whether
it panics and, if so, with which stack lines; the result is `some logLines`
when the wrapper returns normally, and `none` when the deferred handler
itself faults (indexing `stack[i]` out of range, possible only when the
stack has fewer than 7 lines). -/

/-- How the wrapped unit of work ends: normal return, or a runtime panic
whose captured stack splits into the given lines. -/
inductive WorkOutcome where
  | normal
  | panicked (stackLines : List String)
deriving DecidableEq, Repr

set_option linter.unusedVariables false in
/-- `callWithPanicProtection(f, prefix)`.  Returns `some logLines` when the
call returns normally to its caller (logging exactly `logLines`), `none` when
containment itself fails.  The Go function's second parameter is dead code —
the body never reads it — which the model reproduces. -/
def callWithPanicProtection (w : WorkOutcome) (tag : String) :
    Option (List String) :=
  match w with
  | .normal => some []
  | .panicked stackLines =>
    if 7 ≤ stackLines.length then some (List.take 7 stackLines) else none

/-! ## Invariants of the schedule controller -/

/-- The inductive invariant of a scheduled process created with delay `d` and
handle `h`: the captured delay and handle never change, and the invocation
list is determined by the phase — empty until the timer branch runs, and the
single invocation `[[h]]` afterwards. -/
def schedInv (d : Int) (h : LispData) (s : SchedState) : Prop :=
  s.origDelay = d ∧ s.handle = h
  ∧ (s.phase = .armed → s.invocations = [])
  ∧ (s.phase = .aborted → s.invocations = [])
  ∧ (s.phase = .fired → s.invocations = [[h]])

lemma schedInv_init (d : Int) (h : LispData) : schedInv d h (schedInit d h) := by
  refine ⟨rfl, rfl, fun _ => rfl, fun hc => ?_, fun hc => ?_⟩ <;>
    simp [schedInit] at hc

lemma schedInv_step {d : Int} {h : LispData} {s s' : SchedState} {e : SysEvent}
    (hinv : schedInv d h s) (hstep : sysStep s e = some s') :
    schedInv d h s' := by
  obtain ⟨h1, h2, h3, h4, h5⟩ := hinv
  cases e with
  | ctrl ce =>
    simp only [sysStep] at hstep
    cases hp : s.phase with
    | armed =>
      cases ce with
      | recvAbort =>
        cases hb : s.abortSignal with
        | none => simp [ctrlStep, hp, hb] at hstep
        | some b =>
          simp only [ctrlStep, hp, hb] at hstep
          cases hstep
          exact ⟨h1, h2, by simp, fun _ => h3 hp, by simp⟩
      | recvRestart =>
        cases hb : s.restartSignal with
        | none => simp [ctrlStep, hp, hb] at hstep
        | some b =>
          simp only [ctrlStep, hp, hb] at hstep
          cases hstep
          exact ⟨h1, h2, fun _ => h3 hp, by simp, by simp⟩
      | timerElapse =>
        simp only [ctrlStep, hp] at hstep
        cases hstep
        exact ⟨h1, h2, by simp, by simp, fun _ => by simp [h3 hp, h2]⟩
    | aborted => simp [ctrlStep, hp] at hstep
    | fired => simp [ctrlStep, hp] at hstep
  | abandonDeliver =>
    simp only [sysStep] at hstep
    cases hb : s.abortSignal with
    | none =>
      simp only [blockingSend, hb] at hstep
      cases hstep
      exact ⟨h1, h2, h3, h4, h5⟩
    | some b => simp [blockingSend, hb] at hstep
  | resetTimeoutAttempt =>
    simp only [sysStep] at hstep
    cases hstep
    exact ⟨h1, h2, h3, h4, h5⟩

lemma schedInv_run {d : Int} {h : LispData} (tr : List SysEvent) :
    ∀ {s0 s : SchedState}, schedInv d h s0 → sysRun s0 tr = some s →
      schedInv d h s := by
  induction tr with
  | nil =>
    intro s0 s hinv hrun
    simp only [sysRun] at hrun
    cases hrun
    exact hinv
  | cons e es ih =>
    intro s0 s hinv hrun
    simp only [sysRun] at hrun
    obtain ⟨s1, hstep, hrest⟩ := Option.bind_eq_some.mp hrun
    exact ih (schedInv_step hinv hstep) hrest

lemma schedInv_reachable {d : Int} {h : LispData} {tr : List SysEvent}
    {s : SchedState} (hrun : sysRun (schedInit d h) tr = some s) :
    schedInv d h s :=
  schedInv_run tr (schedInv_init d h) hrun

/-! ## Claim theorems -/

/-- C1: for every process created by `schedule`, in every state reachable by
any interleaving of controller steps, abandon deliveries and reset-timeout
attempts: the callback has been invoked at most once, always with the process
handle as sole argument; if the controller reached Aborted the callback never
ran; from Armed, an abort receipt moves to Aborted consuming the abort event
and with the callback never having run; from Armed, timer elapse invokes the
callback exactly once (with the handle as sole argument) and moves to Fired;
and once the loop has exited (phase not Armed) no controller transition is
possible at all — the controller consumes neither `abortSignal` nor
`restartSignal`. -/
theorem schedule_controller_state_machine (d : Int) (h : LispData)
    (tr : List SysEvent) (s : SchedState)
    (hrun : sysRun (schedInit d h) tr = some s) :
    s.invocations.length ≤ 1
    ∧ (∀ a ∈ s.invocations, a = [h])
    ∧ (s.phase = .aborted → s.invocations = [])
    ∧ (s.phase = .armed → ∀ b, s.abortSignal = some b →
        ctrlStep s .recvAbort
            = some { s with phase := .aborted, abortSignal := none }
          ∧ s.invocations = [])
    ∧ (s.phase = .armed →
        ctrlStep s .timerElapse
            = some { s with phase := .fired,
                            invocations := s.invocations ++ [[s.handle]] }
          ∧ s.invocations ++ [[s.handle]] = [[h]])
    ∧ (s.phase ≠ .armed → ∀ e : CtrlEvent, ctrlStep s e = none) := by
  obtain ⟨h1, h2, h3, h4, h5⟩ := schedInv_reachable hrun
  refine ⟨?_, ?_, h4, ?_, ?_, ?_⟩
  · cases hp : s.phase with
    | armed => simp [h3 hp]
    | aborted => simp [h4 hp]
    | fired => simp [h5 hp]
  · intro a ha
    cases hp : s.phase with
    | armed => rw [h3 hp] at ha; cases ha
    | aborted => rw [h4 hp] at ha; cases ha
    | fired => rw [h5 hp] at ha; simp at ha; exact ha
  · intro hp b hb
    exact ⟨by simp [ctrlStep, hp, hb], h3 hp⟩
  · intro hp
    exact ⟨by simp [ctrlStep, hp], by simp [h3 hp, h2]⟩
  · intro hp e
    cases hq : s.phase with
    | armed => exact absurd hq hp
    | aborted => simp [ctrlStep, hq]
    | fired => simp [ctrlStep, hq]

/-- Witness for C1 at a concrete run: delay 100, the trace
reset-timeout-attempt, restart receipt, timer elapse; the resulting state has
exactly one invocation `[[handle]]`, and from its terminal Fired phase no
controller step is possible. -/
theorem schedule_controller_state_machine_witness :
    (⟨.fired, none, none, 100, 100, .objD "Process" 0,
        [[.objD "Process" 0]]⟩ : SchedState).invocations.length ≤ 1
    ∧ ctrlStep ⟨.fired, none, none, 100, 100, .objD "Process" 0,
        [[.objD "Process" 0]]⟩ .recvAbort = none :=
  ⟨(schedule_controller_state_machine 100 (.objD "Process" 0)
      [.resetTimeoutAttempt, .ctrl .recvRestart, .ctrl .timerElapse] _ rfl).1,
   (schedule_controller_state_machine 100 (.objD "Process" 0)
      [.resetTimeoutAttempt, .ctrl .recvRestart, .ctrl .timerElapse] _
      rfl).2.2.2.2.2 (by simp) .recvAbort⟩

/-- C6: in any reachable state of a process scheduled with delay `d`, if the
controller is Armed and a restart event is pending, receiving it re-arms the
timer for the original delay `d` captured at the `schedule` call, leaves the
invocation list unchanged, and remains in Armed with all three waits (abort,
restart, timer elapse) still live — in particular a further timer elapse is
still a possible step. -/
theorem schedule_restart_rearms_original_delay (d : Int) (h : LispData)
    (tr : List SysEvent) (s : SchedState)
    (hrun : sysRun (schedInit d h) tr = some s)
    (harmed : s.phase = .armed) (b : Bool) (hbuf : s.restartSignal = some b) :
    ctrlStep s .recvRestart
        = some { s with restartSignal := none, timerArmedFor := d }
    ∧ ({ s with restartSignal := none, timerArmedFor := d } : SchedState).phase
        = .armed
    ∧ (ctrlStep { s with restartSignal := none, timerArmedFor := d }
        .timerElapse).isSome = true := by
  obtain ⟨h1, h2, h3, h4, h5⟩ := schedInv_reachable hrun
  refine ⟨?_, harmed, ?_⟩
  · simp [ctrlStep, harmed, hbuf, h1]
  · simp [ctrlStep, harmed]

/-- Witness for C6: schedule with delay 100, deliver one reset-timeout; in the
resulting Armed state the restart receipt re-arms the timer for 100. -/
theorem schedule_restart_rearms_original_delay_witness :
    ctrlStep ⟨.armed, none, some true, 100, 100, .objD "Process" 0, []⟩
        .recvRestart
      = some ⟨.armed, none, none, 100, 100, .objD "Process" 0, []⟩ :=
  (schedule_restart_rearms_original_delay 100 (.objD "Process" 0)
    [.resetTimeoutAttempt] _ rfl rfl true rfl).1

/-- C2 counterexample: schedule a process with delay 100 and let its timer
elapse: the controller has exited (phase Fired), yet `reset-timeout` on that
process returns `"OK"` — the non-blocking send lands in the free buffer slot —
not the informational string the claim requires whenever the controller has
exited. -/
theorem resetTimeout_after_fired_returns_OK :
    (sysRun (schedInit 100 (LispData.objD "Process" 0))
        [SysEvent.ctrl CtrlEvent.timerElapse]).map
      (fun s => (s.phase,
        ResetTimeoutImpl (Except.ok (LispData.objD "Process" 0))
          s.restartSignal))
    = some (CtrlPhase.fired,
        Except.ok (some true, LispData.strD "OK")) := rfl

/-- C2 amended: `reset-timeout` performs a non-blocking delivery into
`restartSignal` and never blocks the caller (it always returns a result);
it returns `"OK"` exactly when the capacity-1 restart buffer has a free
slot — which includes, but is not limited to, the controller actively
waiting in Armed — and returns
`"task was already completed or abandoned"` exactly when a prior restart
event is still undelivered, leaving the buffer unchanged in that case. -/
theorem resetTimeout_nonblocking_buffer (p : LispData)
    (hp : isProcessObj p = true) (buf : SignalChan) :
    (ResetTimeoutImpl (.ok p) buf).isOk = true
    ∧ (buf = none →
        ResetTimeoutImpl (.ok p) buf = .ok (some true, .strD "OK"))
    ∧ (buf ≠ none →
        ResetTimeoutImpl (.ok p) buf
          = .ok (buf, .strD "task was already completed or abandoned")) := by
  cases buf with
  | none => simp [ResetTimeoutImpl, hp, nonBlockingSend, Except.isOk, Except.toBool]
  | some b => simp [ResetTimeoutImpl, hp, nonBlockingSend, Except.isOk, Except.toBool]

/-- Witness for C2's amended theorem at a Process handle with a free restart
slot and with an occupied one. -/
theorem resetTimeout_nonblocking_buffer_witness :
    ResetTimeoutImpl (.ok (LispData.objD "Process" 0)) none
      = .ok (some true, .strD "OK")
    ∧ ResetTimeoutImpl (.ok (LispData.objD "Process" 0)) (some true)
      = .ok (some true, .strD "task was already completed or abandoned") :=
  ⟨(resetTimeout_nonblocking_buffer (LispData.objD "Process" 0) rfl
      none).2.1 rfl,
   (resetTimeout_nonblocking_buffer (LispData.objD "Process" 0) rfl
      (some true)).2.2 (by simp)⟩

/-- C3 counterexample: schedule a process with delay 100 and let its timer
elapse: the controller has exited (phase Fired), yet the first `abandon` does
not block — the blocking send completes immediately into the free capacity-1
buffer slot — and the call returns `"OK"`, contradicting the claim that
abandon blocks indefinitely and never returns once the controller has
exited. -/
theorem abandon_after_fired_completes :
    (sysRun (schedInit 100 (LispData.objD "Process" 0))
        [SysEvent.ctrl CtrlEvent.timerElapse]).map
      (fun s => (s.phase,
        AbandonImpl (Except.ok (LispData.objD "Process" 0)) s.abortSignal))
    = some (CtrlPhase.fired,
        Except.ok ⟨SendOutcome.completed (some true),
          LispData.strD "OK"⟩) := rfl

/-- C3 amended: `abandon` delivers one event into `abortSignal` using a
blocking delivery into the capacity-1 buffer; the call blocks if and only if
the buffer already holds an undelivered abort event (after the controller has
exited such an event is never drained, so the call then blocks indefinitely);
when the slot is free — even after the controller has exited — the delivery
completes immediately into the buffer and the call returns `"OK"`. -/
theorem abandon_blocking_buffer (p : LispData)
    (hp : isProcessObj p = true) (buf : SignalChan) :
    (buf = none →
      AbandonImpl (.ok p) buf
        = .ok ⟨SendOutcome.completed (some true), .strD "OK"⟩)
    ∧ (buf ≠ none →
      AbandonImpl (.ok p) buf = .ok ⟨SendOutcome.blocked, .strD "OK"⟩) := by
  cases buf with
  | none => simp [AbandonImpl, hp, blockingSend]
  | some b => simp [AbandonImpl, hp, blockingSend]

/-- Witness for C3's amended theorem: on a free abort slot the first abandon
completes with `"OK"`; on an occupied slot a second abandon blocks. -/
theorem abandon_blocking_buffer_witness :
    AbandonImpl (.ok (LispData.objD "Process" 0)) none
      = .ok ⟨SendOutcome.completed (some true), .strD "OK"⟩
    ∧ AbandonImpl (.ok (LispData.objD "Process" 0)) (some true)
      = .ok ⟨SendOutcome.blocked, .strD "OK"⟩ :=
  ⟨(abandon_blocking_buffer (LispData.objD "Process" 0) rfl none).1 rfl,
   (abandon_blocking_buffer (LispData.objD "Process" 0) rfl
      (some true)).2 (by simp)⟩

/-- C4: `proc-sleep`, given a valid Process handle and an integer millisecond
count, races exactly the two events receipt-on-wakeSignal and timer-elapse,
and returns exactly one boolean: `true` when the wake event was received
first, `false` when the timer elapsed first (both argument expressions having
been evaluated). -/
theorem procSleep_race_result (p m : LispData)
    (hp : isProcessObj p = true) (hm : IntegerP m = true)
    (w : SleepRaceWinner) :
    ProcSleepImpl (.ok p) (.ok m) w
      = (.ok (.boolD (w = SleepRaceWinner.wakeRecv)), 2) := by
  cases w <;> simp [ProcSleepImpl, hp, hm]

/-- Witness for C4 at a concrete handle, delay 100, both race outcomes. -/
theorem procSleep_race_result_witness :
    ProcSleepImpl (.ok (LispData.objD "Process" 0))
        (.ok (LispData.intD 100)) .wakeRecv
      = (.ok (.boolD true), 2)
    ∧ ProcSleepImpl (.ok (LispData.objD "Process" 0))
        (.ok (LispData.intD 100)) .timerElapse
      = (.ok (.boolD false), 2) :=
  ⟨procSleep_race_result (.objD "Process" 0) (.intD 100) rfl rfl .wakeRecv,
   procSleep_race_result (.objD "Process" 0) (.intD 100) rfl rfl .timerElapse⟩

/-- C5: fork/schedule validation.  When the function expression's value is
not callable, both primitives return the type error and spawn nothing (no
task, no callback arguments, no controller); when it is callable with
required-argument count other than 1, both return the arity error and spawn
nothing; and when schedule's delay value is not an integer, schedule returns
the type error and spawns nothing, whatever its second argument. -/
theorem fork_schedule_validation (millis f : LispData) (pid : Nat) :
    (FunctionP f = false →
        ForkImpl (.ok f) pid
          = ⟨.error (.notAFunction "fork" f), false, none, none⟩
      ∧ (IntegerP millis = true →
          ScheduleImpl (.ok millis) (.ok f) pid
            = ⟨.error (.notAFunction "schedule" f), false, none⟩))
    ∧ (FunctionP f = true → RequiredArgCount f ≠ 1 →
        ForkImpl (.ok f) pid
          = ⟨.error (.wrongArity "fork" (RequiredArgCount f)), false,
              none, none⟩
      ∧ (IntegerP millis = true →
          ScheduleImpl (.ok millis) (.ok f) pid
            = ⟨.error (.wrongArity "schedule" (RequiredArgCount f)),
                false, none⟩))
    ∧ (IntegerP millis = false →
        ∀ arg2 : Except RuntimeError LispData,
          ScheduleImpl (.ok millis) arg2 pid
            = ⟨.error (.notAnInteger "schedule" millis), false, none⟩) := by
  refine ⟨fun hf => ⟨?_, fun hm => ?_⟩,
          fun hf ha => ⟨?_, fun hm => ?_⟩,
          fun hm arg2 => ?_⟩
  · simp [ForkImpl, hf]
  · simp [ScheduleImpl, hm, hf]
  · simp [ForkImpl, hf, ha]
  · simp [ScheduleImpl, hm, hf, ha]
  · simp [ScheduleImpl, hm]

/-- Witness for C5: a non-callable value yields the fork type error with no
spawn; a 2-ary function yields the schedule arity error with no spawn; a
non-integer delay yields the schedule type error with no spawn. -/
theorem fork_schedule_validation_witness :
    ForkImpl (.ok (LispData.intD 7)) 0
      = ⟨.error (.notAFunction "fork" (LispData.intD 7)), false, none, none⟩
    ∧ ScheduleImpl (.ok (LispData.intD 5)) (.ok (LispData.funcD 2 0)) 0
      = ⟨.error (.wrongArity "schedule" 2), false, none⟩
    ∧ ScheduleImpl (.ok (LispData.strD "soon")) (.ok (LispData.funcD 1 0)) 0
      = ⟨.error (.notAnInteger "schedule" (LispData.strD "soon")),
          false, none⟩ :=
  ⟨((fork_schedule_validation (LispData.intD 5) (LispData.intD 7) 0).1
      (by decide)).1,
   (((fork_schedule_validation (LispData.intD 5) (LispData.funcD 2 0) 0).2.1
      (by decide) (by decide)).2 (by decide)),
   ((fork_schedule_validation (LispData.strD "soon") (LispData.funcD 1 0)
      0).2.2 (by decide) (.ok (LispData.funcD 1 0)))⟩

/-- C7: `wake` on any Process handle performs the blocking delivery of one
boolean event into the capacity-1 `wakeSignal`: it completes immediately when
the slot is free, blocks exactly when the slot already holds an undelivered
event, and the value returned once delivery completes is always the literal
string `"OK"`; on any non-Process value the only failure is the handle-type
error, and no further validation exists — every Process handle is accepted
whatever the channel state. -/
theorem wake_blocking_delivery (p : LispData) (hp : isProcessObj p = true)
    (buf : SignalChan) :
    (buf = none →
      WakeImpl (.ok p) buf
        = .ok ⟨SendOutcome.completed (some true), .strD "OK"⟩)
    ∧ (buf ≠ none →
      WakeImpl (.ok p) buf = .ok ⟨SendOutcome.blocked, .strD "OK"⟩)
    ∧ ((WakeImpl (.ok p) buf).map WakeOutcome.returnValue
        = .ok (.strD "OK"))
    ∧ (∀ q : LispData, isProcessObj q = false →
        WakeImpl (.ok q) buf = .error (.notAProcess "wake" q)) := by
  refine ⟨fun hb => ?_, fun hb => ?_, ?_, fun q hq => ?_⟩
  · simp [WakeImpl, hp, hb, blockingSend]
  · cases buf with
    | none => exact absurd rfl hb
    | some b => simp [WakeImpl, hp, blockingSend]
  · simp [WakeImpl, hp, Except.map]
  · simp [WakeImpl, hq]

/-- Witness for C7: a Process handle with an empty and with an occupied wake
slot, and a non-Process value. -/
theorem wake_blocking_delivery_witness :
    WakeImpl (.ok (LispData.objD "Process" 0)) none
      = .ok ⟨SendOutcome.completed (some true), .strD "OK"⟩
    ∧ WakeImpl (.ok (LispData.objD "Process" 0)) (some true)
      = .ok ⟨SendOutcome.blocked, .strD "OK"⟩
    ∧ WakeImpl (.ok (LispData.intD 3)) none
      = .error (.notAProcess "wake" (LispData.intD 3)) :=
  ⟨(wake_blocking_delivery (.objD "Process" 0) rfl none).1 rfl,
   (wake_blocking_delivery (.objD "Process" 0) rfl (some true)).2.1
      (by simp),
   (wake_blocking_delivery (.objD "Process" 0) rfl none).2.2.2
      (.intD 3) rfl⟩

/-- C8, evaluated at a failing input: the wrapper contains a panic whose
stack splits into eight lines and returns normally having logged the first
seven stack lines verbatim — none of them carries the caller-supplied tag
`"fork"` — and in general the logged output is entirely independent of the
tag argument, which the body never reads. -/
theorem panicProtection_ignores_tag :
    (∀ (w : WorkOutcome) (t1 t2 : String),
      callWithPanicProtection w t1 = callWithPanicProtection w t2)
    ∧ callWithPanicProtection
        (.panicked ["goroutine 17 [running]:", "s1", "s2", "s3", "s4",
          "s5", "s6", "s7"]) "fork"
      = some ["goroutine 17 [running]:", "s1", "s2", "s3", "s4", "s5", "s6"]
    ∧ (["goroutine 17 [running]:", "s1", "s2", "s3", "s4", "s5", "s6"].all
        (fun l => !(decide (l.data.take 4 = "fork".data))) = true) :=
  ⟨fun w t1 t2 => by cases w <;> rfl, rfl, by decide⟩

/-- C9: a fork-created process has all three capacity-1 channels empty and no
controller consuming them; hence the first `abandon` completes immediately
into the abort buffer and returns `"OK"`, the first `reset-timeout` delivers
into the restart buffer and returns `"OK"` (not the informational string),
and only a second `abandon` — the slot now occupied and never drained —
blocks. -/
theorem fork_buffered_first_deliveries :
    (ForkImpl (.ok (LispData.funcD 1 0)) 0).procChans = some forkFreshChans
    ∧ (ForkImpl (.ok (LispData.funcD 1 0)) 0).spawnedCallArgs
        = some [LispData.objD "Process" 0]
    ∧ AbandonImpl (.ok (LispData.objD "Process" 0))
        forkFreshChans.abortSignal
      = .ok ⟨SendOutcome.completed (some true), .strD "OK"⟩
    ∧ ResetTimeoutImpl (.ok (LispData.objD "Process" 0))
        forkFreshChans.restartSignal
      = .ok (some true, .strD "OK")
    ∧ AbandonImpl (.ok (LispData.objD "Process" 0)) (some true)
      = .ok ⟨SendOutcome.blocked, .strD "OK"⟩ :=
  ⟨rfl, rfl, rfl, rfl, rfl⟩

/-- C10: `proc-sleep` evaluates and validates strictly left to right: when
the first argument expression fails to evaluate, its error is returned with
only one argument expression evaluated; when it evaluates to a non-Process
value, the process type error is returned, again with only the first
argument evaluated — in both cases whatever the second argument expression
would have produced, it is never evaluated. -/
theorem procSleep_left_to_right (e : RuntimeError) (v : LispData)
    (arg2 : Except RuntimeError LispData) (w : SleepRaceWinner) :
    ProcSleepImpl (.error e) arg2 w = (.error e, 1)
    ∧ (isProcessObj v = false →
        ProcSleepImpl (.ok v) arg2 w
          = (.error (.notAProcess "proc-sleep" v), 1)) := by
  refine ⟨rfl, fun hv => ?_⟩
  simp [ProcSleepImpl, hv]

/-- Witness for C10: a failed first argument, and an integer first argument,
each leave the second argument expression unevaluated (count 1). -/
theorem procSleep_left_to_right_witness :
    ProcSleepImpl (.error (.evalFailure 0))
        (.ok (LispData.intD 5)) .wakeRecv
      = (.error (.evalFailure 0), 1)
    ∧ ProcSleepImpl (.ok (LispData.intD 9))
        (.error (.evalFailure 1)) .wakeRecv
      = (.error (.notAProcess "proc-sleep" (LispData.intD 9)), 1) :=
  ⟨(procSleep_left_to_right (.evalFailure 0) (.intD 9)
      (.ok (LispData.intD 5)) .wakeRecv).1,
   (procSleep_left_to_right (.evalFailure 0) (.intD 9)
      (.error (.evalFailure 1)) .wakeRecv).2 rfl⟩
end GoLisp
